import Mathlib

/-!
Shallow embedding of the dnsm resolver core: the resolution engine
(`Match`, `FindRecord`, `IsDomainConfigured`, `ForwardRequest`,
`HandleRequest` from the engine source) and the record store
(`AddOrUpdateDomain`, `DeleteDomain`, `AddRecord`, `UpdateRecord`,
`DeleteRecord`, `ListDomainsWithPagination` from DnsManager.go),
together with a model of Go's `net.ParseIP` / `IP.To4` / `IP.To16`.

Modelling conventions:
- Go strings are Lean `String`s; byte-level operations act on `.data`
  (rune lists).  `strings.ToLower` is modelled as ASCII case folding,
  which agrees with Go on DNS names.
- Go `int` fields (TTL, pagination parameters) are `Int`; the
  `uint32(...)` conversion applied to the TTL is an explicit mod 2^32.
- The Go map `domainMap` is an association list with unique keys;
  insertion replaces in place, deletion filters.
- Network I/O in `ForwardRequest` is an explicit `exchange` function
  from an upstream address to `Option UpMsg`; `none` covers both an
  exchange error and a nil response.
- Persistence (`updateDomainsNode`) is a Boolean environment flag
  `persistOk`: the Go method mutates the receiver's map first and then
  attempts the write, so the embedded operations return the mutated map
  together with `persistError` when the flag is false.
-/

namespace Dnsm

/-- ASCII model of `strings.ToLower` on a rune list. -/
def lowerL (cs : List Char) : List Char := cs.map Char.toLower

/-- Model of `strings.TrimSuffix(s, ".")` on a rune list: drop one trailing dot. -/
def trimDotL (cs : List Char) : List Char :=
  if cs.getLast? = some '.' then cs.dropLast else cs

/-- The name normalization used by both `Match` and `FindRecord` in the
engine source: `strings.ToLower(strings.TrimSuffix(s, "."))`. -/
def normL (s : String) : List Char := lowerL (trimDotL s.data)

/-- `strings.HasPrefix(s, "*")`: the first rune is `*`. -/
def headIsStar (cs : List Char) : Bool :=
  match cs with
  | [] => false
  | c :: _ => c == '*'

/-- `strings.HasSuffix`. -/
def endsWithL (s suf : List Char) : Bool := decide (suf <:+ s)

/-- `DNSEngine.Match` from the engine source: normalize both names
(lower-case, strip one trailing dot); exact equality matches; a rule
starting with `*` matches when the query name ends with `rule[1:]`. -/
def Match (qname rule : String) : Bool :=
  let q := normL qname
  let r := normL rule
  if q = r then true
  else if headIsStar r then endsWithL q (r.drop 1)
  else false

/-- DNS type code `dns.TypeA`. -/
def typeA : Nat := 1
/-- DNS type code `dns.TypeCNAME`. -/
def typeCNAME : Nat := 5
/-- DNS type code `dns.TypeTXT`. -/
def typeTXT : Nat := 16
/-- DNS type code `dns.TypeAAAA`. -/
def typeAAAA : Nat := 28

/-- `conf.Record` / `core.Record`: one DNS record from the configuration.
`type` is a Lean keyword, so the Go field `Type` is called `rtype`. -/
structure Record where
  name : String
  rtype : String
  value : String
  ttl : Int
deriving DecidableEq

/-- `conf.Domain` / `core.Domain`: a named group of records. -/
structure Domain where
  name : String
  records : List Record
deriving DecidableEq

/-- The slice of config data the engine reads: `conf.GetDomains()` and
`conf.GetUpstream()` (both return slices in configuration order). -/
structure Config where
  domains : List Domain
  upstream : List String
deriving DecidableEq

/-- The type dispatch of the exact-match pass of `FindRecord`: the Go
`switch record.Type` with a `qtype` test in each of the four cases. -/
def typeOk (rtype : String) (qtype : Nat) : Bool :=
  (rtype == "A" && qtype == typeA) || (rtype == "AAAA" && qtype == typeAAAA)
    || (rtype == "CNAME" && qtype == typeCNAME) || (rtype == "TXT" && qtype == typeTXT)

/-- The type dispatch of the wildcard pass of `FindRecord`: only the
`A` and `AAAA` cases appear in the source's second `switch`. -/
def wildOk (rtype : String) (qtype : Nat) : Bool :=
  (rtype == "A" && qtype == typeA) || (rtype == "AAAA" && qtype == typeAAAA)

/-- Pass 1 of `FindRecord` over one domain's record slice: first record
whose normalized name equals the normalized query name and whose type
matches the query type; a name hit with a type miss falls through. -/
def findExact (qname : String) (qtype : Nat) : List Record → Option Record
  | [] => none
  | r :: rest =>
    if normL r.name = normL qname then
      if typeOk r.rtype qtype then some r
      else findExact qname qtype rest
    else findExact qname qtype rest

/-- Pass 2 of `FindRecord` over one domain's record slice: first record
whose name starts with `*`, `Match`-es the query name, and has type A
or AAAA matching the query type. -/
def findWild (qname : String) (qtype : Nat) : List Record → Option Record
  | [] => none
  | r :: rest =>
    if headIsStar r.name.data && Match qname r.name && wildOk r.rtype qtype then some r
    else findWild qname qtype rest

/-- `DNSEngine.FindRecord`: for each configured domain in order, try the
exact-match pass, then the wildcard pass, before moving to the next
domain; the first hit wins. -/
def FindRecord (domains : List Domain) (qname : String) (qtype : Nat) : Option Record :=
  match domains with
  | [] => none
  | d :: rest =>
    match findExact qname qtype d.records with
    | some r => some r
    | none =>
      match findWild qname qtype d.records with
      | some r => some r
      | none => FindRecord rest qname qtype

/-- `DNSEngine.IsDomainConfigured`: some record of some domain
`Match`-es the query name. -/
def IsDomainConfigured (domains : List Domain) (qname : String) : Bool :=
  domains.any fun d => d.records.any fun r => Match qname r.name

/-! ### Model of Go's `net.ParseIP`, `IP.To4`, `IP.To16`

`net.ParseIP` delegates to `netip.ParseAddr` (rejecting zoned
addresses) and returns the 16-byte form of the address, so an IPv4
dotted quad comes back as a v4-mapped IPv6 address. -/

/-- Decimal digit value of a rune, or `none`. -/
def digitVal (c : Char) : Option Nat :=
  if '0' ≤ c ∧ c ≤ '9' then some (c.toNat - 48) else none

/-- One field of a dotted quad, per `netip`'s `parseIPv4`: 1–3 decimal
digits, value at most 255, no leading zero. -/
def parseV4Field (cs : List Char) : Option Nat :=
  if cs = [] then none
  else if 3 < cs.length then none
  else if 1 < cs.length ∧ cs.head? = some '0' then none
  else
    match cs.mapM digitVal with
    | none => none
    | some ds =>
      let v := ds.foldl (fun a d => a * 10 + d) 0
      if v ≤ 255 then some v else none

/-- `netip`'s `parseIPv4`: exactly four dot-separated fields. -/
def parseV4 (cs : List Char) : Option (Nat × Nat × Nat × Nat) :=
  match (cs.splitOn '.').mapM parseV4Field with
  | some [a, b, c, d] => some (a, b, c, d)
  | _ => none

/-- Hexadecimal digit value of a rune, or `none`. -/
def hexVal (c : Char) : Option Nat :=
  if '0' ≤ c ∧ c ≤ '9' then some (c.toNat - 48)
  else if 'a' ≤ c ∧ c ≤ 'f' then some (c.toNat - 87)
  else if 'A' ≤ c ∧ c ≤ 'F' then some (c.toNat - 55)
  else none

/-- Split a rune list into its leading run of hex digits and the rest. -/
def takeHexDigits (cs : List Char) : List Char × List Char :=
  (cs.takeWhile (fun c => (hexVal c).isSome), cs.dropWhile (fun c => (hexVal c).isSome))

/-- The main loop of `netip`'s `parseIPv6`.  `ip` is the list of bytes
accumulated so far and `ellipsis` the byte position of a `::`, if seen.
Each 16-bit hex group appends two bytes; a trailing dotted quad appends
four.  The loop runs at most eight times (16 bytes, two per step), so
the fuel never binds. -/
def parseV6Core (fuel : Nat) (s : List Char) (ip : List Nat) (ellipsis : Option Nat) :
    Option (List Nat × Option Nat) :=
  match fuel with
  | 0 => none
  | fuel + 1 =>
    if s = [] then none
    else if 16 ≤ ip.length then none
    else
      let (digits, rest) := takeHexDigits s
      if digits = [] then none
      else if rest.head? = some '.' then
        if (ellipsis.isNone && ip.length != 12) || 16 < ip.length + 4 then none
        else
          match parseV4 (digits ++ rest) with
          | none => none
          | some (a, b, c, d) => some (ip ++ [a, b, c, d], ellipsis)
      else if 4 < digits.length then none
      else
        let acc := digits.foldl (fun a c => a * 16 + (hexVal c).getD 0) 0
        let ip2 := ip ++ [acc / 256, acc % 256]
        match rest with
        | [] => some (ip2, ellipsis)
        | ':' :: rest2 =>
          match rest2 with
          | [] => none
          | ':' :: rest3 =>
            if ellipsis.isSome then none
            else if rest3 = [] then some (ip2, some ip2.length)
            else parseV6Core fuel rest3 ip2 (some ip2.length)
          | _ => parseV6Core fuel rest2 ip2 ellipsis
        | _ => none

/-- End of `parseIPv6`: expand the `::` with zero bytes (it must stand
for at least one 16-bit field), requiring exactly 16 bytes overall. -/
def finishV6 (ip : List Nat) (ellipsis : Option Nat) : Option (List Nat) :=
  if ip.length < 16 then
    match ellipsis with
    | none => none
    | some e => some (ip.take e ++ List.replicate (16 - ip.length) 0 ++ ip.drop e)
  else
    match ellipsis with
    | none => some ip
    | some _ => none

/-- `netip`'s `parseIPv6` (zoned addresses, rejected by `net.ParseIP`,
are folded into the failure case). -/
def parseV6 (cs : List Char) : Option (List Nat) :=
  match cs with
  | ':' :: ':' :: rest =>
    if rest = [] then some (List.replicate 16 0)
    else
      match parseV6Core 20 rest [] (some 0) with
      | none => none
      | some (ip, ell) => finishV6 ip ell
  | _ =>
    match parseV6Core 20 cs [] none with
    | none => none
    | some (ip, ell) => finishV6 ip ell

/-- The 16-byte v4-mapped form of an IPv4 address, as returned by
`net.ParseIP` for dotted quads. -/
def v4mapped (a b c d : Nat) : List Nat :=
  [0, 0, 0, 0, 0, 0, 0, 0, 0, 0, 255, 255, a, b, c, d]

/-- The dispatch scan of `netip.ParseAddr`: the first `.` selects the
IPv4 parser, the first `:` the IPv6 parser, and `%` is an error. -/
def goParseIPAux (whole : List Char) : List Char → Option (List Nat)
  | [] => none
  | c :: rest =>
    if c = '.' then (parseV4 whole).map (fun x => v4mapped x.1 x.2.1 x.2.2.1 x.2.2.2)
    else if c = ':' then parseV6 whole
    else if c = '%' then none
    else goParseIPAux whole rest

/-- Model of `net.ParseIP`: `none`, or the 16-byte form of the address. -/
def goParseIP (s : String) : Option (List Nat) := goParseIPAux s.data s.data

/-- Model of `net.IP.To4`: the 4-byte form when the address is IPv4 or
v4-mapped IPv6, else `none`. -/
def goTo4 (ip : List Nat) : Option (List Nat) :=
  if ip.length = 4 then some ip
  else
    match ip with
    | [0, 0, 0, 0, 0, 0, 0, 0, 0, 0, 255, 255, a, b, c, d] => some [a, b, c, d]
    | _ => none

/-- Model of `net.IP.To16`: the 16-byte form; defined for every valid
address (so it never fails on a `goParseIP` result). -/
def goTo16 (ip : List Nat) : Option (List Nat) :=
  if ip.length = 4 then
    some ([0, 0, 0, 0, 0, 0, 0, 0, 0, 0, 255, 255] ++ ip)
  else if ip.length = 16 then some ip
  else none

/-! ### The per-query pipeline: answer synthesis, forwarding, `HandleRequest` -/

/-- The data carried by a synthesized or forwarded resource record. -/
inductive RRData where
  | a (ip : List Nat)
  | aaaa (ip : List Nat)
  | cname (target : String)
  | txt (chunks : List String)
deriving DecidableEq

/-- A resource record as it appears in a DNS message section. -/
structure RR where
  name : String
  rrtype : Nat
  ttl : Nat
  rdata : RRData
deriving DecidableEq

/-- An upstream response: the sections and code `HandleRequest` copies. -/
structure UpMsg where
  rcode : Nat
  answer : List RR
  ns : List RR
  extra : List RR
deriving DecidableEq

/-- The reply written back by `HandleRequest`. -/
structure Reply where
  rcode : Nat
  recursionAvailable : Bool
  answer : List RR
  ns : List RR
  extra : List RR
deriving DecidableEq

/-- One question of a DNS query. -/
structure Question where
  qname : String
  qtype : Nat
deriving DecidableEq

/-- `dns.RcodeServerFailure`. -/
def rcodeServerFailure : Nat := 2

/-- Go's `uint32(t)` applied to the `int` TTL field. -/
def toUInt32Nat (t : Int) : Nat := (t.emod 4294967296).toNat

/-- The `switch record.Type` of `HandleRequest` that synthesizes the
answer section from a found record: A/AAAA parse the value as an IP
literal and silently drop the record when the parse (or `To4`) fails;
CNAME forces a trailing dot on the target; TXT wraps the value. -/
def synthAnswer (qname : String) (qtype : Nat) (record : Record) : List RR :=
  if record.rtype = "A" then
    if qtype = typeA then
      match (goParseIP record.value).bind goTo4 with
      | some ip4 => [⟨qname, typeA, toUInt32Nat record.ttl, .a ip4⟩]
      | none => []
    else []
  else if record.rtype = "AAAA" then
    if qtype = typeAAAA then
      match (goParseIP record.value).bind goTo16 with
      | some ip16 => [⟨qname, typeAAAA, toUInt32Nat record.ttl, .aaaa ip16⟩]
      | none => []
    else []
  else if record.rtype = "CNAME" then
    if qtype = typeCNAME then
      [⟨qname, typeCNAME, toUInt32Nat record.ttl,
        .cname (if endsWithL record.value.data ['.'] then record.value else record.value ++ ".")⟩]
    else []
  else if record.rtype = "TXT" then
    if qtype = typeTXT then
      [⟨qname, typeTXT, toUInt32Nat record.ttl, .txt [record.value]⟩]
    else []
  else []

/-- `DNSEngine.ForwardRequest`: walk the upstream list in order and
return the first successful non-nil response; `none` when every
upstream fails (the Go method then returns an error). -/
def ForwardRequest (upstreams : List String) (exchange : String → Option UpMsg) :
    Option UpMsg :=
  match upstreams with
  | [] => none
  | u :: rest =>
    match exchange u with
    | some resp => some resp
    | none => ForwardRequest rest exchange

/-- `DNSEngine.HandleRequest`: the reply starts as a success reply with
recursion available; a zero-question query is answered as is; otherwise
the first question is either answered locally (configured name) or
forwarded, with total upstream failure turning into a server-failure
reply with recursion available cleared. -/
def HandleRequest (cfg : Config) (exchange : String → Option UpMsg)
    (questions : List Question) : Reply :=
  match questions with
  | [] => ⟨0, true, [], [], []⟩
  | q :: _ =>
    if IsDomainConfigured cfg.domains q.qname then
      match FindRecord cfg.domains q.qname q.qtype with
      | some record => ⟨0, true, synthAnswer q.qname q.qtype record, [], []⟩
      | none => ⟨0, true, [], [], []⟩
    else
      match ForwardRequest cfg.upstream exchange with
      | some resp => ⟨resp.rcode, true, resp.answer, resp.ns, resp.extra⟩
      | none => ⟨rcodeServerFailure, false, [], [], []⟩

/-! ### The record store (`ViperYAMLManager` in DnsManager.go) -/

/-- The error taxonomy of the store's mutating operations. -/
inductive StoreError where
  | validation
  | notFound
  | conflict
  | persistError
deriving DecidableEq

/-- The in-memory `domainMap`, as an association list with unique keys
(`Domain.name` is the map key throughout the Go code). -/
abbrev StoreMap := List Domain

/-- Map lookup `m.domainMap[domainName]`. -/
def lookupDomain (m : StoreMap) (name : String) : Option Domain :=
  match m with
  | [] => none
  | d :: rest => if d.name == name then some d else lookupDomain rest name

/-- Map insertion `m.domainMap[dom.Name] = dom`: replace the entry with
the same key in place, or append a new entry. -/
def insertDomain (m : StoreMap) (dom : Domain) : StoreMap :=
  match m with
  | [] => [dom]
  | d :: rest => if d.name == dom.name then dom :: rest else d :: insertDomain rest dom

/-- Map deletion `delete(m.domainMap, name)`. -/
def removeDomain (m : StoreMap) (name : String) : StoreMap :=
  m.filter (fun d => d.name != name)

/-- `AddOrUpdateDomain`: reject an empty name, otherwise insert or
replace the domain and attempt persistence.  The memory update
precedes the persistence attempt, exactly as in the Go method. -/
def AddOrUpdateDomain (persistOk : Bool) (m : StoreMap) (dom : Domain) :
    StoreMap × Option StoreError :=
  if dom.name = "" then (m, some .validation)
  else (insertDomain m dom, if persistOk then none else some .persistError)

/-- `DeleteDomain`: not-found when the key is absent, otherwise delete
and attempt persistence. -/
def DeleteDomain (persistOk : Bool) (m : StoreMap) (name : String) :
    StoreMap × Option StoreError :=
  match lookupDomain m name with
  | none => (m, some .notFound)
  | some _ => (removeDomain m name, if persistOk then none else some .persistError)

/-- `AddRecord`: not-found when the domain is absent; conflict when a
record with the same name and type exists; otherwise append the record
and attempt persistence. -/
def AddRecord (persistOk : Bool) (m : StoreMap) (domainName : String) (record : Record) :
    StoreMap × Option StoreError :=
  match lookupDomain m domainName with
  | none => (m, some .notFound)
  | some dom =>
    if dom.records.any (fun r => r.name == record.name && r.rtype == record.rtype) then
      (m, some .conflict)
    else
      (insertDomain m { dom with records := dom.records ++ [record] },
        if persistOk then none else some .persistError)

/-- The record-update loop of `UpdateRecord`: replace the first record
whose name (only the name — the type is not consulted) equals
`recordName`; `none` when no record matches. -/
def replaceRecord (records : List Record) (recordName : String) (newRecord : Record) :
    Option (List Record) :=
  match records with
  | [] => none
  | r :: rest =>
    if r.name == recordName then some (newRecord :: rest)
    else (replaceRecord rest recordName newRecord).map (r :: ·)

/-- `UpdateRecord`: not-found when the domain or the named record is
absent; otherwise replace the first name match in place and attempt
persistence. -/
def UpdateRecord (persistOk : Bool) (m : StoreMap) (domainName recordName : String)
    (newRecord : Record) : StoreMap × Option StoreError :=
  match lookupDomain m domainName with
  | none => (m, some .notFound)
  | some dom =>
    match replaceRecord dom.records recordName newRecord with
    | none => (m, some .notFound)
    | some newRecords =>
      (insertDomain m { dom with records := newRecords },
        if persistOk then none else some .persistError)

/-- `DeleteRecord`: not-found when the domain is absent or no record
carries the name; otherwise keep the records with a different name and
attempt persistence. -/
def DeleteRecord (persistOk : Bool) (m : StoreMap) (domainName recordName : String) :
    StoreMap × Option StoreError :=
  match lookupDomain m domainName with
  | none => (m, some .notFound)
  | some dom =>
    if dom.records.any (fun r => r.name == recordName) then
      (insertDomain m { dom with records := dom.records.filter (fun r => r.name != recordName) },
        if persistOk then none else some .persistError)
    else (m, some .notFound)

/-- `DomainInfo`: the listing projection of a domain. -/
structure DomainInfo where
  name : String
  recordCount : Nat
deriving DecidableEq

/-- `DomainListResult`: total count plus one page of domain infos. -/
structure DomainListResult where
  total : Int
  domains : List DomainInfo
deriving DecidableEq

/-- `strings.ToLower` on a whole string. -/
def goToLowerS (s : String) : String := ⟨lowerL s.data⟩

/-- The comparison `ListDomainsWithPagination` sorts with:
case-insensitive order on the domain name. -/
def infoLe (a b : DomainInfo) : Bool := decide (goToLowerS a.name ≤ goToLowerS b.name)

/-- The projection and sort step of `ListDomainsWithPagination`. -/
def sortedInfos (m : StoreMap) : List DomainInfo :=
  (m.map (fun d => DomainInfo.mk d.name d.records.length)).mergeSort infoLe

/-- Two's-complement wrapping of Go's 64-bit `int` arithmetic. -/
def wrap64 (x : Int) : Int := (x + 2 ^ 63).emod (2 ^ 64) - 2 ^ 63

/-- `ListDomainsWithPagination`: clamp `page` to at least 1 and
`pageSize` to 20 when outside `[1, 100]`; sort the domain infos
case-insensitively by name; return the slice
`domainInfos[start:end]` with `start = (page-1)*pageSize` and
`end = min(len, start+pageSize)`, or an empty slice when `start` is at
or past the end.  `start` and `end` are computed in Go's machine `int`,
so each arithmetic step wraps at 64 bits; a wrapped `start` can pass
the end-of-list guard, and the slice expression panics — modelled as
`none` — unless `0 ≤ start ≤ end`. -/
def ListDomainsWithPagination (m : StoreMap) (page pageSize : Int) :
    Option DomainListResult :=
  let page := if page < 1 then 1 else page
  let pageSize := if pageSize < 1 || 100 < pageSize then 20 else pageSize
  let total : Int := m.length
  let sorted := sortedInfos m
  let start := wrap64 (wrap64 (page - 1) * pageSize)
  let stop := wrap64 (start + pageSize)
  if (sorted.length : Int) ≤ start then some ⟨total, []⟩
  else
    let stop := if (sorted.length : Int) < stop then (sorted.length : Int) else stop
    if 0 ≤ start ∧ start ≤ stop then
      some ⟨total, (sorted.drop start.toNat).take (stop - start).toNat⟩
    else none

/-! ### Spec-side descriptions used to characterize `FindRecord` -/

/-- Spec-side predicate for a pass-1 (exact) hit: normalized record
name equals the normalized query name, record type matches the query
type among A/AAAA/CNAME/TXT. -/
def exactMatches (qname : String) (qtype : Nat) (r : Record) : Bool :=
  decide (normL r.name = normL qname) && typeOk r.rtype qtype

/-- Spec-side predicate for a pass-2 (wildcard) hit: record name starts
with `*`, `Match` accepts the query name, and the record type is A or
AAAA matching the query type. -/
def wildMatches (qname : String) (qtype : Nat) (r : Record) : Bool :=
  headIsStar r.name.data && Match qname r.name && wildOk r.rtype qtype

/-- Spec-side clamped page size: 20 whenever outside `[1, 100]`. -/
def pagSize (pageSize : Int) : Nat :=
  if pageSize < 1 || 100 < pageSize then 20 else pageSize.toNat

/-- Spec-side start position `(page-1)*pageSize` after clamping. -/
def pagStart (page pageSize : Int) : Nat :=
  ((if page < 1 then 1 else page) - 1).toNat * pagSize pageSize

end Dnsm

open Dnsm

/-- The exact-match pass over one record slice is `List.find?` with the
spec-side exact-hit predicate. -/
theorem findExact_eq_find? (qname : String) (qtype : Nat) (rs : List Record) :
    findExact qname qtype rs = rs.find? (exactMatches qname qtype) := by
  induction rs with
  | nil => rfl
  | cons r rest ih =>
    unfold findExact
    by_cases h1 : normL r.name = normL qname
    · by_cases h2 : typeOk r.rtype qtype = true
      · rw [List.find?_cons_of_pos rest (by simp [exactMatches, h1, h2])]
        simp [h1, h2]
      · rw [List.find?_cons_of_neg rest (by simp [exactMatches, h2])]
        simp [h1, h2, ih]
    · rw [List.find?_cons_of_neg rest (by simp [exactMatches, h1])]
      simp [h1, ih]

/-- The wildcard pass over one record slice is `List.find?` with the
spec-side wildcard-hit predicate. -/
theorem findWild_eq_find? (qname : String) (qtype : Nat) (rs : List Record) :
    findWild qname qtype rs = rs.find? (wildMatches qname qtype) := by
  induction rs with
  | nil => rfl
  | cons r rest ih =>
    unfold findWild
    by_cases h : (headIsStar r.name.data && Match qname r.name && wildOk r.rtype qtype) = true
    · rw [List.find?_cons_of_pos rest (by simp [wildMatches] at h ⊢; tauto)]
      simp [h]
    · rw [List.find?_cons_of_neg rest (by simp [wildMatches] at h ⊢; tauto)]
      simp [h, ih]

/-- `FindRecord` is `List.findSome?` over the domains of the
per-domain search: exact pass first, wildcard pass second. -/
theorem FindRecord_eq_findSome? (domains : List Domain) (qname : String) (qtype : Nat) :
    FindRecord domains qname qtype =
      domains.findSome? (fun d =>
        match d.records.find? (exactMatches qname qtype) with
        | some r => some r
        | none => d.records.find? (wildMatches qname qtype)) := by
  induction domains with
  | nil => rfl
  | cons d rest ih =>
    unfold FindRecord
    rw [List.findSome?_cons, findExact_eq_find?, findWild_eq_find?]
    rcases h1 : d.records.find? (exactMatches qname qtype) with _ | r
    · rcases h2 : d.records.find? (wildMatches qname qtype) with _ | r
      · simpa using ih
      · simp
    · simp

/-- A found record came from some domain's record slice, as an exact
hit or as a wildcard hit. -/
theorem FindRecord_some {domains : List Domain} {qname : String} {qtype : Nat} {rec : Record}
    (h : FindRecord domains qname qtype = some rec) :
    ∃ d ∈ domains, rec ∈ d.records ∧
      (exactMatches qname qtype rec = true ∨ wildMatches qname qtype rec = true) := by
  rw [FindRecord_eq_findSome?] at h
  obtain ⟨d, hd, hf⟩ := List.exists_of_findSome?_eq_some h
  refine ⟨d, hd, ?_⟩
  rcases h1 : d.records.find? (exactMatches qname qtype) with _ | r
  · rw [h1] at hf
    simp only at hf
    exact ⟨List.mem_of_find?_eq_some hf, Or.inr (List.find?_some hf)⟩
  · rw [h1] at hf
    simp only at hf
    cases hf
    exact ⟨List.mem_of_find?_eq_some h1, Or.inl (List.find?_some h1)⟩

/-- Either kind of hit implies `Match` accepts the query name against
the record name (so a found record means the name is configured). -/
theorem hit_match {qname : String} {qtype : Nat} {rec : Record}
    (h : exactMatches qname qtype rec = true ∨ wildMatches qname qtype rec = true) :
    Match qname rec.name = true := by
  rcases h with h | h
  · simp only [exactMatches, Bool.and_eq_true, decide_eq_true_eq] at h
    unfold Match
    simp [h.1.symm]
  · simp only [wildMatches, Bool.and_eq_true] at h
    exact h.1.2

/-- Either kind of hit implies the record type matches the query type
(the wildcard dispatch is a restriction of the exact dispatch). -/
theorem hit_typeOk {qname : String} {qtype : Nat} {rec : Record}
    (h : exactMatches qname qtype rec = true ∨ wildMatches qname qtype rec = true) :
    typeOk rec.rtype qtype = true := by
  rcases h with h | h
  · simp only [exactMatches, Bool.and_eq_true] at h
    exact h.2
  · simp only [wildMatches, wildOk, typeOk, Bool.and_eq_true, Bool.or_eq_true] at h ⊢
    tauto

/-- A found record means `IsDomainConfigured` is true for the query name. -/
theorem FindRecord_configured {domains : List Domain} {qname : String} {qtype : Nat}
    {rec : Record} (h : FindRecord domains qname qtype = some rec) :
    IsDomainConfigured domains qname = true := by
  obtain ⟨d, hd, hrec, hhit⟩ := FindRecord_some h
  unfold IsDomainConfigured
  rw [List.any_eq_true]
  refine ⟨d, hd, ?_⟩
  rw [List.any_eq_true]
  exact ⟨rec, hrec, hit_match hhit⟩

/-- C2 counterexample: the two passes are per-domain, not global.  With
domain `d1` holding only the wildcard A record `*.com` and domain `d2`
holding the exact A record `www.com`, the query `(www.com, A)` is
answered by `d1`'s wildcard record even though an exact match exists in
`d2` — pass 2 ran although pass 1 would have found a hit elsewhere. -/
theorem c2_counterexample :
    FindRecord [⟨"d1", [⟨"*.com", "A", "1.1.1.1", 60⟩]⟩, ⟨"d2", [⟨"www.com", "A", "2.2.2.2", 60⟩]⟩]
        "www.com" typeA = some ⟨"*.com", "A", "1.1.1.1", 60⟩ ∧
    exactMatches "www.com" typeA ⟨"www.com", "A", "2.2.2.2", 60⟩ = true ∧
    (⟨"*.com", "A", "1.1.1.1", 60⟩ : Record) ≠ ⟨"www.com", "A", "2.2.2.2", 60⟩ := by
  refine ⟨by decide, by decide, by decide⟩

/-- C2 (amended): `FindRecord` searches the configured domains in
order, and within each domain runs the exact pass (case-insensitive,
trailing-dot-normalized name equality, any of A/AAAA/CNAME/TXT) before
the wildcard pass (name starting with `*`, `Match` true, A/AAAA only);
the first hit wins, so a wildcard hit in an earlier domain can shadow
an exact hit in a later domain.  A wildcard record still never answers
a CNAME or TXT query: any record found for those query types is an
exact hit. -/
theorem c2_per_domain_two_pass (domains : List Domain) (qname : String) (qtype : Nat) :
    (FindRecord domains qname qtype =
      domains.findSome? (fun d =>
        match d.records.find? (exactMatches qname qtype) with
        | some r => some r
        | none => d.records.find? (wildMatches qname qtype))) ∧
    ((qtype = typeCNAME ∨ qtype = typeTXT) → ∀ rec,
      FindRecord domains qname qtype = some rec → exactMatches qname qtype rec = true) := by
  refine ⟨FindRecord_eq_findSome? domains qname qtype, ?_⟩
  intro ht rec h
  obtain ⟨d, _, _, hhit⟩ := FindRecord_some h
  rcases hhit with hhit | hhit
  · exact hhit
  · exfalso
    simp only [wildMatches, wildOk, Bool.and_eq_true, Bool.or_eq_true] at hhit
    rcases ht with ht | ht <;> rcases hhit.2 with ⟨_, hq⟩ | ⟨_, hq⟩ <;>
      simp [ht, typeA, typeAAAA, typeCNAME, typeTXT] at hq

/-- C2 witness: instantiating the per-domain two-pass characterization
on a concrete store and a TXT query, whose only possible hit is exact. -/
theorem c2_per_domain_two_pass_witness :
    (FindRecord [⟨"d1", [⟨"t.com", "TXT", "hello", 60⟩]⟩] "t.com" typeTXT =
      List.findSome? (fun d : Domain =>
        match d.records.find? (exactMatches "t.com" typeTXT) with
        | some r => some r
        | none => d.records.find? (wildMatches "t.com" typeTXT))
        [⟨"d1", [⟨"t.com", "TXT", "hello", 60⟩]⟩]) ∧
    exactMatches "t.com" typeTXT ⟨"t.com", "TXT", "hello", 60⟩ = true := by
  have h := c2_per_domain_two_pass [⟨"d1", [⟨"t.com", "TXT", "hello", 60⟩]⟩] "t.com" typeTXT
  exact ⟨h.1, h.2 (Or.inr rfl) ⟨"t.com", "TXT", "hello", 60⟩ (by decide)⟩

/-- C1 counterexample: two domains may hold A records with the same
name, and only the first in configuration order is answered.  Domain
`d2` contains the A record `(www.com, 5.6.7.8, 60)` whose value parses
as an IPv4 literal, yet the answer for `(www.com, A)` carries `d1`'s
value `1.2.3.4`, not `5.6.7.8` — so the claim fails when instantiated
at `d2`'s record. -/
theorem c1_counterexample :
    HandleRequest
        ⟨[⟨"d1", [⟨"www.com", "A", "1.2.3.4", 60⟩]⟩,
          ⟨"d2", [⟨"www.com", "A", "5.6.7.8", 60⟩]⟩], []⟩
        (fun _ => none) [⟨"www.com", typeA⟩] =
      ⟨0, true, [⟨"www.com", typeA, 60, .a [1, 2, 3, 4]⟩], [], []⟩ ∧
    parseV4 "5.6.7.8".data = some (5, 6, 7, 8) ∧
    (⟨"www.com", typeA, 60, .a [1, 2, 3, 4]⟩ : RR) ≠ ⟨"www.com", typeA, 60, .a [5, 6, 7, 8]⟩ := by
  refine ⟨by decide, by decide, by decide⟩

/-- C1 (amended): if `FindRecord` resolves `(r, A)` to an A record with
value `v` and TTL `t` — as it does whenever some domain holds that
record and no earlier record in the search order shadows it, e.g. when
it is the only record matching `r` — and `net.ParseIP` gives `v` an
IPv4 form `ip4`, and `t` is in `uint32` range, then the reply to
`(r, A)` holds exactly one answer record, of type A, with name `r`,
address `ip4`, and TTL `t`. -/
theorem c1_single_a_answer (cfg : Config) (ex : String → Option UpMsg)
    (r n v : String) (t : Int) (ip4 : List Nat)
    (hfind : FindRecord cfg.domains r typeA = some ⟨n, "A", v, t⟩)
    (hv : (goParseIP v).bind goTo4 = some ip4)
    (ht0 : 0 ≤ t) (ht1 : t < 4294967296) :
    HandleRequest cfg ex [⟨r, typeA⟩] =
      ⟨0, true, [⟨r, typeA, t.toNat, .a ip4⟩], [], []⟩ := by
  have hconf := FindRecord_configured hfind
  unfold HandleRequest
  simp only [hconf, if_true, hfind]
  unfold synthAnswer
  simp only [if_pos rfl]
  rw [hv]
  have he : t.emod 4294967296 = t := Int.emod_eq_of_lt ht0 ht1
  simp [toUInt32Nat, he]

/-- C1 witness: one configured A record `www.com → 9.9.9.9`, TTL 300,
queried as `(www.com, A)`. -/
theorem c1_single_a_answer_witness :
    HandleRequest ⟨[⟨"d", [⟨"www.com", "A", "9.9.9.9", 300⟩]⟩], []⟩
        (fun _ => none) [⟨"www.com", typeA⟩] =
      ⟨0, true, [⟨"www.com", typeA, (300 : Int).toNat, .a [9, 9, 9, 9]⟩], [], []⟩ :=
  c1_single_a_answer ⟨[⟨"d", [⟨"www.com", "A", "9.9.9.9", 300⟩]⟩], []⟩ (fun _ => none)
    "www.com" "www.com" "9.9.9.9" 300 [9, 9, 9, 9] (by decide) (by decide)
    (by decide) (by decide)

/-- `ForwardRequest` returns the first upstream's successful response:
every upstream before `u` failing and `u` answering means the walk
stops at `u`. -/
theorem ForwardRequest_first (ups1 : List String) (u : String) (ups2 : List String)
    (ex : String → Option UpMsg) (resp : UpMsg)
    (h1 : ∀ v ∈ ups1, ex v = none) (h2 : ex u = some resp) :
    ForwardRequest (ups1 ++ u :: ups2) ex = some resp := by
  induction ups1 with
  | nil =>
    unfold ForwardRequest
    simp [h2]
  | cons a rest ih =>
    unfold ForwardRequest
    rw [List.cons_append]
    simp only [h1 a (by simp)]
    exact ih fun v hv => h1 v (by simp [hv])

/-- `ForwardRequest` fails when every upstream fails. -/
theorem ForwardRequest_none (ups : List String) (ex : String → Option UpMsg)
    (h : ∀ v ∈ ups, ex v = none) :
    ForwardRequest ups ex = none := by
  induction ups with
  | nil => rfl
  | cons a rest ih =>
    unfold ForwardRequest
    simp only [h a (by simp)]
    exact ih fun v hv => h v (by simp [hv])

/-- C4: for a query whose name is not locally configured,
`HandleRequest` walks the upstream list in order; the first upstream
returning a successful non-nil response ends the walk and its answer,
authority, and additional sections and response code are copied
verbatim into the reply (recursion available stays set); when every
upstream fails, the reply is server-failure with recursion available
cleared. -/
theorem c4_forwarding (cfg : Config) (ex : String → Option UpMsg) (q : Question)
    (hconf : IsDomainConfigured cfg.domains q.qname = false) :
    (∀ ups1 u ups2 resp, cfg.upstream = ups1 ++ u :: ups2 →
      (∀ v ∈ ups1, ex v = none) → ex u = some resp →
      HandleRequest cfg ex [q] = ⟨resp.rcode, true, resp.answer, resp.ns, resp.extra⟩) ∧
    ((∀ v ∈ cfg.upstream, ex v = none) →
      HandleRequest cfg ex [q] = ⟨rcodeServerFailure, false, [], [], []⟩) := by
  constructor
  · intro ups1 u ups2 resp hu h1 h2
    unfold HandleRequest
    simp only [hconf, Bool.false_eq_true, if_false]
    rw [hu, ForwardRequest_first ups1 u ups2 ex resp h1 h2]
  · intro hall
    unfold HandleRequest
    simp only [hconf, Bool.false_eq_true, if_false]
    rw [ForwardRequest_none cfg.upstream ex hall]

/-- C4 witness: upstreams `[u1, u2]` with `u1` failing and `u2`
answering with code 3 give back `u2`'s response verbatim; with both
failing the reply is server-failure with recursion available false. -/
theorem c4_forwarding_witness :
    HandleRequest ⟨[], ["u1", "u2"]⟩
        (fun u => if u = "u2" then some ⟨3, [], [], []⟩ else none) [⟨"x.com", typeA⟩] =
      ⟨3, true, [], [], []⟩ ∧
    HandleRequest ⟨[], ["u1", "u2"]⟩ (fun _ => none) [⟨"x.com", typeA⟩] =
      ⟨rcodeServerFailure, false, [], [], []⟩ :=
  ⟨(c4_forwarding ⟨[], ["u1", "u2"]⟩
      (fun u => if u = "u2" then some ⟨3, [], [], []⟩ else none) ⟨"x.com", typeA⟩
      (by decide)).1 ["u1"] "u2" [] ⟨3, [], [], []⟩ rfl (by decide) (by decide),
    (c4_forwarding ⟨[], ["u1", "u2"]⟩ (fun _ => none) ⟨"x.com", typeA⟩
      (by decide)).2 (by decide)⟩

/-- C6 counterexample: a configured AAAA record whose value `1.2.3.4`
is not an IPv6 literal (the IPv6 parser rejects it) is still answered:
`net.ParseIP` accepts the IPv4 literal and `To16` yields its v4-mapped
form, so the reply has one answer rather than an empty answer set. -/
theorem c6_counterexample :
    IsDomainConfigured [⟨"d", [⟨"x.com", "AAAA", "1.2.3.4", 60⟩]⟩] "x.com" = true ∧
    FindRecord [⟨"d", [⟨"x.com", "AAAA", "1.2.3.4", 60⟩]⟩] "x.com" typeAAAA =
      some ⟨"x.com", "AAAA", "1.2.3.4", 60⟩ ∧
    parseV6 "1.2.3.4".data = none ∧
    (HandleRequest ⟨[⟨"d", [⟨"x.com", "AAAA", "1.2.3.4", 60⟩]⟩], []⟩ (fun _ => none)
        [⟨"x.com", typeAAAA⟩]).answer =
      [⟨"x.com", typeAAAA, 60, .aaaa [0, 0, 0, 0, 0, 0, 0, 0, 0, 0, 255, 255, 1, 2, 3, 4]⟩] ∧
    ([⟨"x.com", typeAAAA, 60,
        .aaaa [0, 0, 0, 0, 0, 0, 0, 0, 0, 0, 255, 255, 1, 2, 3, 4]⟩] : List RR) ≠ [] := by
  refine ⟨by decide, by decide, by decide, by decide, by decide⟩

/-- C6 (amended): for a configured query name the response code is
always success (never NXDOMAIN), and the answer set is empty whenever
`FindRecord` yields nothing, or yields an A record whose value
`net.ParseIP` rejects or gives no IPv4 form, or yields an AAAA record
whose value `net.ParseIP` rejects outright.  (An AAAA record whose
value is an IPv4 literal is answered as the v4-mapped address, and an A
record whose value is a v4-mapped IPv6 literal is answered as IPv4, so
"wrong family" alone does not force an empty answer.) -/
theorem c6_noerror_empty (cfg : Config) (ex : String → Option UpMsg) (q : Question)
    (hconf : IsDomainConfigured cfg.domains q.qname = true) :
    (HandleRequest cfg ex [q]).rcode = 0 ∧
    (FindRecord cfg.domains q.qname q.qtype = none →
      (HandleRequest cfg ex [q]).answer = []) ∧
    (∀ rec, FindRecord cfg.domains q.qname q.qtype = some rec → rec.rtype = "A" →
      (goParseIP rec.value).bind goTo4 = none →
      (HandleRequest cfg ex [q]).answer = []) ∧
    (∀ rec, FindRecord cfg.domains q.qname q.qtype = some rec → rec.rtype = "AAAA" →
      goParseIP rec.value = none →
      (HandleRequest cfg ex [q]).answer = []) := by
  refine ⟨?_, ?_, ?_, ?_⟩
  · unfold HandleRequest
    rcases hf : FindRecord cfg.domains q.qname q.qtype with _ | rec <;> simp [hconf, hf]
  · intro h
    unfold HandleRequest
    simp [hconf, h]
  · intro rec hf hA hp
    obtain ⟨d, _, _, hhit⟩ := FindRecord_some hf
    have hok := hit_typeOk hhit
    rw [hA] at hok
    simp only [typeOk, typeA, typeAAAA, typeCNAME, typeTXT] at hok
    norm_num at hok
    unfold HandleRequest
    simp [hconf, hf, synthAnswer, hA, hok, hp, typeA]
  · intro rec hf hA hp
    obtain ⟨d, _, _, hhit⟩ := FindRecord_some hf
    have hok := hit_typeOk hhit
    rw [hA] at hok
    simp only [typeOk, typeA, typeAAAA, typeCNAME, typeTXT] at hok
    norm_num at hok
    unfold HandleRequest
    simp [hconf, hf, synthAnswer, hA, hok, hp, typeAAAA]

/-- C6 witness: a configured A record with an unparsable value yields a
success reply with an empty answer set. -/
theorem c6_noerror_empty_witness :
    (HandleRequest ⟨[⟨"d", [⟨"x.com", "A", "notanip", 60⟩]⟩], []⟩ (fun _ => none)
        [⟨"x.com", typeA⟩]).rcode = 0 ∧
    (HandleRequest ⟨[⟨"d", [⟨"x.com", "A", "notanip", 60⟩]⟩], []⟩ (fun _ => none)
        [⟨"x.com", typeA⟩]).answer = [] := by
  have h := c6_noerror_empty ⟨[⟨"d", [⟨"x.com", "A", "notanip", 60⟩]⟩], []⟩ (fun _ => none)
    ⟨"x.com", typeA⟩ (by decide)
  exact ⟨h.1, h.2.2.1 ⟨"x.com", "A", "notanip", 60⟩ (by decide) rfl (by decide)⟩

/-- A successful map lookup returns a domain carrying the key as name. -/
theorem lookupDomain_some_name {m : StoreMap} {n : String} {dom : Domain}
    (h : lookupDomain m n = some dom) : dom.name = n := by
  induction m with
  | nil => simp [lookupDomain] at h
  | cons d rest ih =>
    unfold lookupDomain at h
    by_cases hd : (d.name == n) = true
    · simp only [hd, if_true, Option.some_inj] at h
      rw [← h]
      exact beq_iff_eq.mp hd
    · simp only [hd, Bool.false_eq_true, if_false] at h
      exact ih h

/-- Looking up the inserted key finds the inserted domain. -/
theorem lookupDomain_insert_self (m : StoreMap) (dom : Domain) :
    lookupDomain (insertDomain m dom) dom.name = some dom := by
  induction m with
  | nil => simp [insertDomain, lookupDomain]
  | cons d rest ih =>
    unfold insertDomain
    by_cases h : (d.name == dom.name) = true
    · simp [h, lookupDomain]
    · simp only [h, Bool.false_eq_true, if_false]
      unfold lookupDomain
      simp only [h, Bool.false_eq_true, if_false]
      exact ih

/-- Looking up any other key is unaffected by an insertion. -/
theorem lookupDomain_insert_other (m : StoreMap) (dom : Domain) (n : String)
    (h : n ≠ dom.name) :
    lookupDomain (insertDomain m dom) n = lookupDomain m n := by
  have hne : (dom.name == n) = false := by
    simp only [beq_eq_false_iff_ne]
    exact Ne.symm h
  induction m with
  | nil => simp [insertDomain, lookupDomain, hne]
  | cons d rest ih =>
    unfold insertDomain
    by_cases hd : (d.name == dom.name) = true
    · have hdn : d.name = dom.name := beq_iff_eq.mp hd
      simp only [hd, if_true]
      unfold lookupDomain
      rw [hne, hdn, hne]
      simp
    · simp only [hd, Bool.false_eq_true, if_false]
      unfold lookupDomain
      by_cases hn : (d.name == n) = true
      · simp [hn]
      · simp only [hn, Bool.false_eq_true, if_false]
        exact ih

/-- C7: `AddRecord` fails with not-found when the domain is absent and
with conflict when a record with the same name and type exists, leaving
the store untouched in both cases; otherwise the only change is that
the target domain's record list gains the record at its end, and with
persistence succeeding no error is reported. -/
theorem c7_add_record (persistOk : Bool) (m : StoreMap) (dn : String) (rec : Record) :
    (lookupDomain m dn = none → AddRecord persistOk m dn rec = (m, some .notFound)) ∧
    (∀ dom, lookupDomain m dn = some dom →
      (dom.records.any fun r => r.name == rec.name && r.rtype == rec.rtype) = true →
      AddRecord persistOk m dn rec = (m, some .conflict)) ∧
    (∀ dom, lookupDomain m dn = some dom →
      (dom.records.any fun r => r.name == rec.name && r.rtype == rec.rtype) = false →
      lookupDomain (AddRecord persistOk m dn rec).1 dn = some ⟨dom.name, dom.records ++ [rec]⟩ ∧
      (∀ n2, n2 ≠ dn → lookupDomain (AddRecord persistOk m dn rec).1 n2 = lookupDomain m n2) ∧
      (persistOk = true → (AddRecord persistOk m dn rec).2 = none)) := by
  refine ⟨?_, ?_, ?_⟩
  · intro h
    unfold AddRecord
    rw [h]
  · intro dom h hc
    unfold AddRecord
    rw [h]
    simp [hc]
  · intro dom h hc
    have hname := lookupDomain_some_name h
    unfold AddRecord
    rw [h]
    simp only [hc, Bool.false_eq_true, if_false]
    refine ⟨?_, ?_, ?_⟩
    · have := lookupDomain_insert_self m ⟨dom.name, dom.records ++ [rec]⟩
      simpa [hname] using this
    · intro n2 hn2
      have := lookupDomain_insert_other m ⟨dom.name, dom.records ++ [rec]⟩ n2
        (by simpa [hname] using hn2)
      simpa using this
    · intro hp
      simp [hp]

/-- C7 witness: not-found on an absent domain, conflict on a duplicate
`(name, type)` pair with the store unchanged, and a successful append. -/
theorem c7_add_record_witness :
    AddRecord true [⟨"example.com", [⟨"www", "A", "1.2.3.4", 60⟩]⟩] "other.com"
        ⟨"www", "A", "9.9.9.9", 60⟩ =
      ([⟨"example.com", [⟨"www", "A", "1.2.3.4", 60⟩]⟩], some .notFound) ∧
    AddRecord true [⟨"example.com", [⟨"www", "A", "1.2.3.4", 60⟩]⟩] "example.com"
        ⟨"www", "A", "9.9.9.9", 120⟩ =
      ([⟨"example.com", [⟨"www", "A", "1.2.3.4", 60⟩]⟩], some .conflict) ∧
    lookupDomain (AddRecord true [⟨"example.com", [⟨"www", "A", "1.2.3.4", 60⟩]⟩]
        "example.com" ⟨"mail", "A", "1.2.3.5", 60⟩).1 "example.com" =
      some ⟨"example.com", [⟨"www", "A", "1.2.3.4", 60⟩, ⟨"mail", "A", "1.2.3.5", 60⟩]⟩ := by
  refine ⟨?_, ?_, ?_⟩
  · exact (c7_add_record true [⟨"example.com", [⟨"www", "A", "1.2.3.4", 60⟩]⟩] "other.com"
      ⟨"www", "A", "9.9.9.9", 60⟩).1 (by decide)
  · exact (c7_add_record true [⟨"example.com", [⟨"www", "A", "1.2.3.4", 60⟩]⟩] "example.com"
      ⟨"www", "A", "9.9.9.9", 120⟩).2.1 ⟨"example.com", [⟨"www", "A", "1.2.3.4", 60⟩]⟩
      (by decide) (by decide)
  · exact ((c7_add_record true [⟨"example.com", [⟨"www", "A", "1.2.3.4", 60⟩]⟩] "example.com"
      ⟨"mail", "A", "1.2.3.5", 60⟩).2.2 ⟨"example.com", [⟨"www", "A", "1.2.3.4", 60⟩]⟩
      (by decide) (by decide)).1

/-- When no record carries the name, the update loop finds nothing. -/
theorem replaceRecord_eq_none {rs : List Record} {rn : String} (nr : Record)
    (h : (rs.any fun r => r.name == rn) = false) :
    replaceRecord rs rn nr = none := by
  induction rs with
  | nil => rfl
  | cons r rest ih =>
    simp only [List.any_cons, Bool.or_eq_false_iff] at h
    unfold replaceRecord
    rw [h.1]
    simp [ih h.2]

/-- Splitting at the first name match: exactly that record is replaced
in place, regardless of its type. -/
theorem replaceRecord_split (pre : List Record) (rold : Record) (post : List Record)
    (rn : String) (nr : Record)
    (hpre : ∀ x ∈ pre, (x.name == rn) = false) (hold : rold.name = rn) :
    replaceRecord (pre ++ rold :: post) rn nr = some (pre ++ nr :: post) := by
  induction pre with
  | nil =>
    unfold replaceRecord
    simp [hold]
  | cons x rest ih =>
    rw [List.cons_append]
    simp only [replaceRecord]
    rw [hpre x (by simp)]
    simp only [Bool.false_eq_true, if_false]
    rw [ih fun y hy => hpre y (by simp [hy])]
    simp

/-- C9: `UpdateRecord` fails with not-found when the domain is absent or
no record in it carries the given name, leaving the store unchanged;
otherwise it matches the first record by name only — the stored type is
not consulted, so the replacement may silently change the record's type
— replaces it in place with the new record, leaves every other domain
untouched, and reports no error when persistence succeeds. -/
theorem c9_update_record (persistOk : Bool) (m : StoreMap) (dn rn : String) (nr : Record) :
    (lookupDomain m dn = none → UpdateRecord persistOk m dn rn nr = (m, some .notFound)) ∧
    (∀ dom, lookupDomain m dn = some dom → (dom.records.any fun r => r.name == rn) = false →
      UpdateRecord persistOk m dn rn nr = (m, some .notFound)) ∧
    (∀ dom pre rold post, lookupDomain m dn = some dom →
      dom.records = pre ++ rold :: post → (∀ x ∈ pre, (x.name == rn) = false) →
      rold.name = rn →
      lookupDomain (UpdateRecord persistOk m dn rn nr).1 dn = some ⟨dom.name, pre ++ nr :: post⟩ ∧
      (∀ n2, n2 ≠ dn →
        lookupDomain (UpdateRecord persistOk m dn rn nr).1 n2 = lookupDomain m n2) ∧
      (persistOk = true → (UpdateRecord persistOk m dn rn nr).2 = none)) := by
  refine ⟨?_, ?_, ?_⟩
  · intro h
    unfold UpdateRecord
    rw [h]
  · intro dom h hnone
    simp only [UpdateRecord, h, replaceRecord_eq_none nr hnone]
  · intro dom pre rold post h hsplit hpre hold
    have hname := lookupDomain_some_name h
    simp only [UpdateRecord, h, hsplit, replaceRecord_split pre rold post rn nr hpre hold]
    refine ⟨?_, ?_, ?_⟩
    · have := lookupDomain_insert_self m ⟨dom.name, pre ++ nr :: post⟩
      simpa [hname] using this
    · intro n2 hn2
      have := lookupDomain_insert_other m ⟨dom.name, pre ++ nr :: post⟩ n2
        (by simpa [hname] using hn2)
      simpa using this
    · intro hp
      simp [hp]

/-- C9 witness: updating record `www` (stored with type A) with a TXT
record replaces it in place, silently changing the type; an absent
domain and an absent record name both fail with not-found and leave the
store unchanged. -/
theorem c9_update_record_witness :
    UpdateRecord true [⟨"example.com", [⟨"www", "A", "1.2.3.4", 60⟩]⟩] "other.com" "www"
        ⟨"www", "TXT", "hello", 120⟩ =
      ([⟨"example.com", [⟨"www", "A", "1.2.3.4", 60⟩]⟩], some .notFound) ∧
    UpdateRecord true [⟨"example.com", [⟨"www", "A", "1.2.3.4", 60⟩]⟩] "example.com" "mail"
        ⟨"mail", "TXT", "hello", 120⟩ =
      ([⟨"example.com", [⟨"www", "A", "1.2.3.4", 60⟩]⟩], some .notFound) ∧
    lookupDomain (UpdateRecord true [⟨"example.com", [⟨"www", "A", "1.2.3.4", 60⟩]⟩]
        "example.com" "www" ⟨"www", "TXT", "hello", 120⟩).1 "example.com" =
      some ⟨"example.com", [⟨"www", "TXT", "hello", 120⟩]⟩ := by
  refine ⟨?_, ?_, ?_⟩
  · exact (c9_update_record true [⟨"example.com", [⟨"www", "A", "1.2.3.4", 60⟩]⟩] "other.com"
      "www" ⟨"www", "TXT", "hello", 120⟩).1 (by decide)
  · exact (c9_update_record true [⟨"example.com", [⟨"www", "A", "1.2.3.4", 60⟩]⟩] "example.com"
      "mail" ⟨"mail", "TXT", "hello", 120⟩).2.1 ⟨"example.com", [⟨"www", "A", "1.2.3.4", 60⟩]⟩
      (by decide) (by decide)
  · exact ((c9_update_record true [⟨"example.com", [⟨"www", "A", "1.2.3.4", 60⟩]⟩] "example.com"
      "www" ⟨"www", "TXT", "hello", 120⟩).2.2 ⟨"example.com", [⟨"www", "A", "1.2.3.4", 60⟩]⟩
      [] ⟨"www", "A", "1.2.3.4", 60⟩ [] (by decide) rfl (by simp) rfl).1

/-- `uint` product through `Int.toNat`. -/
theorem int_toNat_mul (a b : Int) (ha : 0 ≤ a) (hb : 0 ≤ b) :
    (a * b).toNat = a.toNat * b.toNat := by
  conv_lhs => rw [← Int.toNat_of_nonneg ha, ← Int.toNat_of_nonneg hb]
  rw [← Nat.cast_mul, Int.toNat_natCast]

/-- The pagination sort order is transitive. -/
theorem infoLe_trans (a b c : DomainInfo) (h1 : infoLe a b = true) (h2 : infoLe b c = true) :
    infoLe a c = true := by
  simp only [infoLe, decide_eq_true_eq] at h1 h2 ⊢
  exact le_trans h1 h2

/-- The pagination sort order is total. -/
theorem infoLe_total (a b : DomainInfo) : (infoLe a b || infoLe b a) = true := by
  simp only [infoLe, Bool.or_eq_true, decide_eq_true_eq]
  exact le_total _ _

/-- A value already in `int64` range is fixed by the 64-bit wrap. -/
theorem wrap64_eq_self {x : Int} (h0 : -(2 ^ 63) ≤ x) (h1 : x < 2 ^ 63) : wrap64 x = x := by
  unfold wrap64
  have h : (x + 2 ^ 63).emod (2 ^ 64) = x + 2 ^ 63 := Int.emod_eq_of_lt (by omega) (by omega)
  rw [h]
  omega

/-- C8 counterexample: the start position `(page-1)*pageSize` is
computed in Go's wrapping 64-bit `int`, and only `page < 1` is
clamped, so a huge page is reachable.  With one stored domain,
`page = 2^62+1, pageSize = 4` puts the requested start far past the
end — the claim demands an empty slice — but the machine product wraps
to 0 and the first page is served instead; with `page = 2^61+1` the
product wraps to the negative `-2^63`, which passes the end-of-list
guard and makes the slice expression panic (`none`). -/
theorem c8_counterexample :
    (sortedInfos [⟨"a", []⟩]).length ≤ pagStart (2 ^ 62 + 1) 4 ∧
    ListDomainsWithPagination [⟨"a", []⟩] (2 ^ 62 + 1) 4 = some ⟨1, [⟨"a", 0⟩]⟩ ∧
    some (⟨1, [⟨"a", 0⟩]⟩ : DomainListResult) ≠ some (⟨1, []⟩ : DomainListResult) ∧
    ListDomainsWithPagination [⟨"a", []⟩] (2 ^ 61 + 1) 4 = none := by
  have hs : sortedInfos [⟨"a", []⟩] = [⟨"a", 0⟩] := by
    simp [sortedInfos, List.mergeSort_singleton]
  refine ⟨?_, ?_, by decide, ?_⟩
  · rw [hs]
    decide
  · simp only [ListDomainsWithPagination, hs]
    decide
  · simp only [ListDomainsWithPagination, hs]
    decide

/-- C8 (amended): `ListDomainsWithPagination` clamps `page` to at
least 1 and replaces `pageSize` by 20 outside `[1,100]`; whenever the
clamped `page * pageSize` stays below `2^63` — so the machine-int
start and stop computations do not overflow — it returns (without
panicking) `total` equal to the number of domains and a `domains`
slice cut from the list of all domains' infos sorted
case-insensitively by name, covering positions
`[(page-1)*pageSize, min(total, page*pageSize))`, the slice being
empty (with no error) when the start is at or past the end.  Beyond
that bound the 64-bit product wraps: the code can serve a wrong slice
or panic on the slice expression (see the counterexample). -/
theorem c8_pagination (m : StoreMap) (page pageSize : Int)
    (hno : (if page < 1 then 1 else page) *
      (if pageSize < 1 || 100 < pageSize then 20 else pageSize) < 2 ^ 63) :
    (∃ res, ListDomainsWithPagination m page pageSize = some res ∧
      res.total = m.length ∧
      res.domains = ((sortedInfos m).drop (pagStart page pageSize)).take
          (min (sortedInfos m).length (pagStart page pageSize + pagSize pageSize)
            - pagStart page pageSize) ∧
      ((sortedInfos m).length ≤ pagStart page pageSize → res.domains = [])) ∧
    (sortedInfos m).Perm (m.map fun d => DomainInfo.mk d.name d.records.length) ∧
    List.Pairwise (fun a b => infoLe a b = true) (sortedInfos m) := by
  have hperm : (sortedInfos m).Perm (m.map fun d => DomainInfo.mk d.name d.records.length) :=
    List.mergeSort_perm _ infoLe
  have hpair : List.Pairwise (fun a b => infoLe a b = true) (sortedInfos m) :=
    List.sorted_mergeSort infoLe_trans infoLe_total _
  set pg : Int := if page < 1 then 1 else page with hpg
  set ps : Int := if pageSize < 1 || 100 < pageSize then 20 else pageSize with hps
  have hpg1 : 1 ≤ pg := by
    rw [hpg]
    split <;> omega
  have hps1 : 1 ≤ ps := by
    rw [hps]
    split
    · omega
    · rename_i hc
      simp only [Bool.or_eq_true, decide_eq_true_eq, not_or] at hc
      omega
  have hA : 0 ≤ (pg - 1) * ps := mul_nonneg (by omega) (by omega)
  have hC : (pg - 1) * ps + ps = pg * ps := by ring
  have hD : pg ≤ pg * ps := le_mul_of_one_le_right (by omega) hps1
  have hw1 : wrap64 (pg - 1) = pg - 1 := wrap64_eq_self (by omega) (by omega)
  have hw2 : wrap64 ((pg - 1) * ps) = (pg - 1) * ps := wrap64_eq_self (by omega) (by omega)
  have hw3 : wrap64 ((pg - 1) * ps + ps) = (pg - 1) * ps + ps :=
    wrap64_eq_self (by omega) (by omega)
  have hpsN : pagSize pageSize = ps.toNat := by
    rw [hps]
    unfold pagSize
    split <;> rfl
  have hstart : pagStart page pageSize = ((pg - 1) * ps).toNat := by
    unfold pagStart
    rw [hpsN, ← hpg, int_toNat_mul (pg - 1) ps (by omega) (by omega)]
  have hSi : ((pagStart page pageSize : Nat) : Int) = (pg - 1) * ps := by
    rw [hstart, Int.toNat_of_nonneg hA]
  have hPi : ((pagSize pageSize : Nat) : Int) = ps := by
    rw [hpsN, Int.toNat_of_nonneg (by omega)]
  clear_value pg ps
  refine ⟨?_, hperm, hpair⟩
  unfold ListDomainsWithPagination
  rw [← hpg, ← hps]
  dsimp only
  rw [hw1, hw2, hw3]
  split
  · rename_i hb
    refine ⟨⟨(m.length : Int), []⟩, rfl, rfl, ?_, fun _ => rfl⟩
    have hlen : (sortedInfos m).length ≤ pagStart page pageSize := by omega
    simp [List.drop_eq_nil_of_le hlen]
  · rename_i hb
    have hif : (if ((sortedInfos m).length : Int) < (pg - 1) * ps + ps
          then ((sortedInfos m).length : Int) else (pg - 1) * ps + ps) =
        min ((sortedInfos m).length : Int) ((pg - 1) * ps + ps) := by
      split <;> omega
    rw [hif, if_pos ⟨hA, le_min (by omega) (by omega)⟩]
    refine ⟨⟨(m.length : Int),
        ((sortedInfos m).drop ((pg - 1) * ps).toNat).take
          ((min ((sortedInfos m).length : Int) ((pg - 1) * ps + ps) - (pg - 1) * ps).toNat)⟩,
      rfl, rfl, ?_, ?_⟩
    · rw [hstart]
      dsimp only
      congr 1
      omega
    · intro hlen
      exfalso
      omega

/-- C8 witness: three domains, page 2 of size 2 (no overflow), and a
page past the end. -/
theorem c8_pagination_witness :
    (∃ res, ListDomainsWithPagination [⟨"b", []⟩, ⟨"a", []⟩, ⟨"c", []⟩] 2 2 = some res ∧
      res.total = ([⟨"b", []⟩, ⟨"a", []⟩, ⟨"c", []⟩] : StoreMap).length ∧
      res.domains = ((sortedInfos [⟨"b", []⟩, ⟨"a", []⟩, ⟨"c", []⟩]).drop (pagStart 2 2)).take
          (min (sortedInfos [⟨"b", []⟩, ⟨"a", []⟩, ⟨"c", []⟩]).length (pagStart 2 2 + pagSize 2)
            - pagStart 2 2)) ∧
    (∃ res, ListDomainsWithPagination [⟨"b", []⟩, ⟨"a", []⟩, ⟨"c", []⟩] 5 2 = some res ∧
      res.domains = []) := by
  constructor
  · obtain ⟨res, h1, h2, h3, _⟩ :=
      (c8_pagination [⟨"b", []⟩, ⟨"a", []⟩, ⟨"c", []⟩] 2 2 (by decide)).1
    exact ⟨res, h1, h2, h3⟩
  · obtain ⟨res, h1, _, _, h4⟩ :=
      (c8_pagination [⟨"b", []⟩, ⟨"a", []⟩, ⟨"c", []⟩] 5 2 (by decide)).1
    exact ⟨res, h1, h4 (by simp only [sortedInfos, List.length_mergeSort]; decide)⟩

/-- C5: for every pair of names, `Match` normalizes by lower-casing both
and stripping one trailing dot from each, returns true on exact
equality of the normalized names, and when the rule starts with `*`
returns true exactly when the query name ends with the rule minus its
leading character as a plain string suffix; otherwise false.  The
substring-suffix (not label-boundary) semantics is witnessed by
`evilfoo.test.com` matching rule `*foo.test.com`. -/
theorem c5_match_characterization (qname rule : String) :
    (Match qname rule =
      (decide (normL qname = normL rule) ||
        (headIsStar (normL rule) && endsWithL (normL qname) ((normL rule).drop 1)))) ∧
    Match "evilfoo.test.com" "*foo.test.com" = true := by
  refine ⟨?_, by decide⟩
  unfold Match
  by_cases h : normL qname = normL rule <;> simp [h]

/-- C3 counterexample: with the persistence step failing, `AddRecord`
on a present domain and a fresh record still returns a mutated
in-memory map (the record has been appended) together with the
persistence error, so the in-memory domain map is not left unchanged. -/
theorem c3_counterexample :
    AddRecord false [⟨"example.com", [⟨"www", "A", "1.2.3.4", 60⟩]⟩] "example.com"
        ⟨"mail", "A", "1.2.3.5", 60⟩ =
      ([⟨"example.com", [⟨"www", "A", "1.2.3.4", 60⟩, ⟨"mail", "A", "1.2.3.5", 60⟩]⟩],
        some .persistError) ∧
    ([⟨"example.com", [⟨"www", "A", "1.2.3.4", 60⟩, ⟨"mail", "A", "1.2.3.5", 60⟩]⟩] : StoreMap) ≠
      [⟨"example.com", [⟨"www", "A", "1.2.3.4", 60⟩]⟩] := by
  refine ⟨by decide, by decide⟩

/-- C3 (amended): the in-memory state a mutating store operation leaves
behind does not depend on whether the persistence step succeeds — each
operation commits its mutation to the map before persistence is
attempted, so a `persistError` leaves memory advanced past what was
durably written (memory and disk diverge; there is no rollback). -/
theorem c3_memory_independent_of_persistence :
    (∀ m dom, (AddOrUpdateDomain false m dom).1 = (AddOrUpdateDomain true m dom).1) ∧
    (∀ m name, (DeleteDomain false m name).1 = (DeleteDomain true m name).1) ∧
    (∀ m dn rec, (AddRecord false m dn rec).1 = (AddRecord true m dn rec).1) ∧
    (∀ m dn rn nr, (UpdateRecord false m dn rn nr).1 = (UpdateRecord true m dn rn nr).1) ∧
    (∀ m dn rn, (DeleteRecord false m dn rn).1 = (DeleteRecord true m dn rn).1) := by
  refine ⟨?_, ?_, ?_, ?_, ?_⟩
  · intro m dom
    unfold AddOrUpdateDomain
    split <;> simp
  · intro m name
    unfold DeleteDomain
    cases lookupDomain m name <;> simp
  · intro m dn rec
    unfold AddRecord
    cases lookupDomain m dn with
    | none => rfl
    | some dom =>
      by_cases hc : (dom.records.any fun r => r.name == rec.name && r.rtype == rec.rtype) = true <;>
        simp [hc]
  · intro m dn rn nr
    unfold UpdateRecord
    cases lookupDomain m dn with
    | none => rfl
    | some dom =>
      rcases h : replaceRecord dom.records rn nr with _ | newRecords <;> simp [h]
  · intro m dn rn
    unfold DeleteRecord
    cases lookupDomain m dn with
    | none => rfl
    | some dom =>
      by_cases hc : (dom.records.any fun r => r.name == rn) = true <;> simp [hc]

/-- `Match` accepts every query name against the rule `"*"`: after
normalization the rule is `*` and the suffix left after stripping it is
empty, and every string ends with the empty string. -/
theorem match_star_all (qn : String) : Match qn "*" = true := by
  unfold Match
  by_cases hq : normL qn = normL "*"
  · simp [hq]
  · have h1 : headIsStar (normL "*") = true := by decide
    have h2 : (normL "*").drop 1 = [] := by decide
    simp only [hq, if_false, h1, if_true, h2]
    simp [endsWithL]

/-- C10: `Match(q, "*")` is true for every query name, so while some
stored record has the literal name `*`, `IsDomainConfigured` is true
for every query name and `HandleRequest` never consults the upstream
exchange — the reply is the same for any two exchange functions. -/
theorem c10_star_record (q : String) (cfg : Config) (ex1 ex2 : String → Option UpMsg)
    (qs : List Question)
    (h : ∃ d ∈ cfg.domains, ∃ r ∈ d.records, r.name = "*") :
    Match q "*" = true ∧ IsDomainConfigured cfg.domains q = true ∧
      HandleRequest cfg ex1 qs = HandleRequest cfg ex2 qs := by
  obtain ⟨d, hd, r, hr, hname⟩ := h
  have hconf : ∀ qn : String, IsDomainConfigured cfg.domains qn = true := by
    intro qn
    unfold IsDomainConfigured
    rw [List.any_eq_true]
    refine ⟨d, hd, ?_⟩
    rw [List.any_eq_true]
    exact ⟨r, hr, by rw [hname]; exact match_star_all qn⟩
  refine ⟨match_star_all q, hconf q, ?_⟩
  cases qs with
  | nil => rfl
  | cons q0 rest => simp only [HandleRequest, hconf q0.qname, if_true]

/-- C10 witness: a store holding the single record `*` answers every
name locally — two different exchange functions give the same reply. -/
theorem c10_star_record_witness :
    Match "any.example" "*" = true ∧
      IsDomainConfigured [⟨"d", [⟨"*", "A", "1.2.3.4", 60⟩]⟩] "any.example" = true ∧
      HandleRequest ⟨[⟨"d", [⟨"*", "A", "1.2.3.4", 60⟩]⟩], ["u1"]⟩ (fun _ => none)
          [⟨"any.example", typeA⟩] =
        HandleRequest ⟨[⟨"d", [⟨"*", "A", "1.2.3.4", 60⟩]⟩], ["u1"]⟩
          (fun _ => some ⟨0, [], [], []⟩) [⟨"any.example", typeA⟩] :=
  c10_star_record "any.example" ⟨[⟨"d", [⟨"*", "A", "1.2.3.4", 60⟩]⟩], ["u1"]⟩
    (fun _ => none) (fun _ => some ⟨0, [], [], []⟩) [⟨"any.example", typeA⟩]
    ⟨⟨"d", [⟨"*", "A", "1.2.3.4", 60⟩]⟩, by simp,
      ⟨"*", "A", "1.2.3.4", 60⟩, by simp, rfl⟩
